import Mathlib

/-!
Verification of the local assembly routines in `src/c/ch2/loadsolve.c`: the
p-Laplacian Q1 FEM assembler (`FormObjectiveLocal` / `FormFunctionLocal` of
the `plap` program) and the ice-sheet FVE assembler (`FormFunctionLocal`,
`FormBedLocal`, `SIAflux` of the `ice` program).

The embedding works over an arbitrary linear ordered field `F` (instantiable
with `ℝ` for the intended semantics, or `ℚ` for concrete evaluation).  The
external library functions `PetscPowReal`, `PetscSqrtReal`, `sin` and the
constant `PETSC_PI` are passed as opaque parameters (`powR`, `sqrtR`, `sinR`,
`piF`); the boundary function `BoundaryG` of the p-Laplacian program (whose
definition in the source is elided by a `FIXME` marker) and the climatic
mass balance model `M_CMBModel` (declared in the external header `icecmb.h`)
are likewise opaque function parameters `g` and `cmb`.  Machine arithmetic
is modelled exactly (no floating-point rounding).

The 2D arrays of the C code (`au[j][i]`, `FF[k][j]`, ...) are modelled as
total functions `ℤ → ℤ → F`, first argument the row (`y`) index, mirroring
the row-major `[row][col]` accesses of the source.
-/

/-- `DMDALocalInfo`: global grid dimensions `mx × my` and the rectangle
`[xs, xs+xm) × [ys, ys+ym)` of nodes owned by the calling process. -/
structure GridInfo where
  mx : ℤ
  my : ℤ
  xs : ℤ
  xm : ℤ
  ys : ℤ
  ym : ℤ

/-- Node `(PP,QQ)` lies on the global boundary of the grid:
`PP ∈ {0, mx-1}` or `QQ ∈ {0, my-1}` (test used by both assemblers). -/
def boundaryNode (info : GridInfo) (PP QQ : ℤ) : Prop :=
  PP = 0 ∨ PP = info.mx - 1 ∨ QQ = 0 ∨ QQ = info.my - 1

/-- Node `(PP,QQ)` is an interior node (an actual unknown):
`0 < PP < mx-1` and `0 < QQ < my-1`. -/
def interiorNode (info : GridInfo) (PP QQ : ℤ) : Prop :=
  0 < PP ∧ PP < info.mx - 1 ∧ 0 < QQ ∧ QQ < info.my - 1

/-- Half-open ownership test: node `(PP,QQ)` belongs to the calling process,
`xs ≤ PP < xs+xm` and `ys ≤ QQ < ys+ym`. -/
def ownedNode (info : GridInfo) (PP QQ : ℤ) : Prop :=
  info.xs ≤ PP ∧ PP < info.xs + info.xm ∧ info.ys ≤ QQ ∧ QQ < info.ys + info.ym

instance (info : GridInfo) (PP QQ : ℤ) : Decidable (boundaryNode info PP QQ) := by
  unfold boundaryNode; infer_instance

instance (info : GridInfo) (PP QQ : ℤ) : Decidable (interiorNode info PP QQ) := by
  unfold interiorNode; infer_instance

instance (info : GridInfo) (PP QQ : ℤ) : Decidable (ownedNode info PP QQ) := by
  unfold ownedNode; infer_instance

namespace Plap

variable {F : Type*} [LinearOrderedField F]

/-- Corner table `xiL` of the reference element `[-1,1]²`. -/
def xiL : Fin 4 → F := ![1, -1, -1, 1]

/-- Corner table `etaL` of the reference element `[-1,1]²`. -/
def etaL : Fin 4 → F := ![1, 1, -1, -1]

/-- Bilinear shape function `chi(L,xi,eta) = 0.25 (1 + xiL[L] xi)(1 + etaL[L] eta)`. -/
def chi (L : Fin 4) (xi eta : F) : F :=
  0.25 * (1 + xiL L * xi) * (1 + etaL L * eta)

/-- `gradRef`: a gradient in reference coordinates. -/
structure GradRef (F : Type*) where
  xi : F
  eta : F

/-- Reference-space gradient `dchi` of the shape function `chi(L, ·, ·)`. -/
def dchi (L : Fin 4) (xi eta : F) : GradRef F :=
  ⟨0.25 * xiL L * (1 + etaL L * eta), 0.25 * etaL L * (1 + xiL L * xi)⟩

/-- `eval`: value of the bilinear interpolant of nodal values `v` at `(xi,eta)`. -/
def eval (v : Fin 4 → F) (xi eta : F) : F :=
  ∑ L : Fin 4, v L * chi L xi eta

/-- `deval`: reference-space gradient of the bilinear interpolant of `v`. -/
def deval (v : Fin 4 → F) (xi eta : F) : GradRef F :=
  ⟨∑ L : Fin 4, v L * (dchi L xi eta).xi, ∑ L : Fin 4, v L * (dchi L xi eta).eta⟩

/-- Gauss–Legendre node table `zq[n-1][r]` (row index is `degree - 1`; the
`NAN` placeholder entries of the C table, which are never read for a valid
degree, are modelled as `0`). -/
def zq : ℕ → ℕ → F
  | 1, 0 => -0.577350269189626
  | 1, 1 => 0.577350269189626
  | 2, 0 => -0.774596669241483
  | 2, 2 => 0.774596669241483
  | _, _ => 0

/-- Gauss–Legendre weight table `wq[n-1][r]` (same layout as `zq`). -/
def wq : ℕ → ℕ → F
  | 0, 0 => 2
  | 1, 0 => 1
  | 1, 1 => 1
  | 2, 0 => 0.555555555555556
  | 2, 1 => 0.888888888888889
  | 2, 2 => 0.555555555555556
  | _, _ => 0

/-- `GradInnerProd`: inner product of two reference gradients with the
chain-rule scale factors `cx = 4/hx²`, `cy = 4/hy²`. -/
def GradInnerProd (info : GridInfo) (du dv : GradRef F) : F :=
  let hx : F := 1 / ((info.mx : F) - 1)
  let hy : F := 1 / ((info.my : F) - 1)
  let cx : F := 4 / (hx * hx)
  let cy : F := 4 / (hy * hy)
  cx * du.xi * dv.xi + cy * du.eta * dv.eta

/-- `GradPow`: `(|du|² + eps²)^(P/2)` via the opaque power `powR`. -/
def GradPow (powR : F → F → F) (info : GridInfo) (du : GradRef F) (P eps : F) : F :=
  powR (GradInnerProd info du du + eps * eps) (P / 2)

/-- `FRHS`: manufactured right-hand side of the p-Laplacian PDE. -/
def FRHS (powR : F → F → F) (x y p alpha : F) : F :=
  let xs : F := x + alpha
  let ys : F := y + alpha
  let XX : F := xs * xs
  let YY : F := ys * ys
  let D2 : F := XX + YY
  let gamma1 : F := 1 / xs + xs / D2
  let gamma2 : F := 1 / ys + ys / D2
  let C : F := powR (XX * YY * D2) ((p - 2) / 2);
  -(p - 2) * C * (gamma1 * (x + alpha) * YY + gamma2 * XX * (y + alpha)) - C * D2

/-- Local corner offsets `li` of the element whose upper-right node is `(i,j)`. -/
def li : Fin 4 → ℤ := ![0, -1, -1, 0]

/-- Local corner offsets `lj` of the element whose upper-right node is `(i,j)`. -/
def lj : Fin 4 → ℤ := ![0, 0, -1, -1]

/-- `GetUorGElement`: the four nodal values of the element with upper-right
node `(i,j)`; corners on the global boundary take the boundary value `g`,
the other corners take the current iterate `au`. -/
def GetUorGElement (g : F → F → F → F) (info : GridInfo) (i j : ℤ)
    (au : ℤ → ℤ → F) (alpha : F) : Fin 4 → F :=
  let hx : F := 1 / ((info.mx : F) - 1)
  let hy : F := 1 / ((info.my : F) - 1)
  let x : F := (i : F) * hx
  let y : F := (j : F) * hy
  ![if i = info.mx - 1 ∨ j = info.my - 1 then g x y alpha else au j i,
    if i - 1 = 0 ∨ j = info.my - 1 then g (x - hx) y alpha else au j (i - 1),
    if i - 1 = 0 ∨ j - 1 = 0 then g (x - hx) (y - hy) alpha else au (j - 1) (i - 1),
    if i = info.mx - 1 ∨ j - 1 = 0 then g x (y - hy) alpha else au (j - 1) i]

/-- The four `FRHS` values at the corners of the element with upper-right
node `(i,j)` (`f[0..3]` in both assembly loops). -/
def fElement (powR : F → F → F) (info : GridInfo) (i j : ℤ) (p alpha : F) : Fin 4 → F :=
  let hx : F := 1 / ((info.mx : F) - 1)
  let hy : F := 1 / ((info.my : F) - 1)
  let x : F := (i : F) * hx
  let y : F := (j : F) * hy
  ![FRHS powR x y p alpha,
    FRHS powR (x - hx) y p alpha,
    FRHS powR (x - hx) (y - hy) p alpha,
    FRHS powR x (y - hy) p alpha]

/-- `FunIntegrand`: weak-form integrand of the residual with respect to the
basis function of local corner `L`. -/
def FunIntegrand (powR : F → F → F) (info : GridInfo) (L : Fin 4)
    (f u : Fin 4 → F) (xi eta P eps : F) : F :=
  GradPow powR info (deval u xi eta) (P - 2) eps
      * GradInnerProd info (deval u xi eta) (dchi L xi eta)
    - eval f xi eta * chi L xi eta

/-- The total contribution `C Σ_r Σ_s wq[r] wq[s] FunIntegrand(L,...)` that the
element with upper-right node `(i,j)` adds to the residual of the node at its
local corner `l` (with `C = 0.25 hx hy`). -/
def elemNodeContrib (powR : F → F → F) (g : F → F → F → F) (info : GridInfo)
    (au : ℤ → ℤ → F) (p eps alpha : F) (n : ℕ) (i j : ℤ) (l : Fin 4) : F :=
  let hx : F := 1 / ((info.mx : F) - 1)
  let hy : F := 1 / ((info.my : F) - 1)
  let C : F := 0.25 * hx * hy
  ∑ r ∈ Finset.range n, ∑ s ∈ Finset.range n,
    C * wq (n - 1) r * wq (n - 1) s *
      FunIntegrand powR info l (fElement powR info i j p alpha)
        (GetUorGElement g info i j au alpha) (zq (n - 1) r) (zq (n - 1) s) p eps

/-- The element loop of `FormFunctionLocal` (plap), viewed pointwise: the total
amount accumulated into the residual cell `FF[QQ][PP]`.  Iteration `(i,j,l)`
contributes `elemNodeContrib i j l` exactly when `(i+li[l], j+lj[l]) = (PP,QQ)`
and the guard (interior and owned) holds for that node. -/
def elementLoopAccum (powR : F → F → F) (g : F → F → F → F) (info : GridInfo)
    (au : ℤ → ℤ → F) (p eps alpha : F) (n : ℕ) (QQ PP : ℤ) : F :=
  ∑ j ∈ Finset.Icc (max 1 info.ys) (min (info.my - 1) (info.ys + info.ym)),
    ∑ i ∈ Finset.Icc (max 1 info.xs) (min (info.mx - 1) (info.xs + info.xm)),
      ∑ l : Fin 4,
        if i + li l = PP ∧ j + lj l = QQ
            ∧ interiorNode info (i + li l) (j + lj l)
            ∧ ownedNode info (i + li l) (j + lj l)
        then elemNodeContrib powR g info au p eps alpha n i j l else 0

/-- `FormFunctionLocal` (plap): the residual value of cell `FF[QQ][PP]`:
the initialization (Dirichlet mismatch `u - g` at boundary nodes, `0` at
interior nodes) plus the element-loop accumulation.  The C routine writes
only cells of the owned patch; the theorems below quantify over owned
nodes only (for contributions, over arbitrary nodes). -/
def FormFunctionLocal (powR : F → F → F) (g : F → F → F → F) (info : GridInfo)
    (au : ℤ → ℤ → F) (p eps alpha : F) (n : ℕ) (QQ PP : ℤ) : F :=
  let hx : F := 1 / ((info.mx : F) - 1)
  let hy : F := 1 / ((info.my : F) - 1)
  (if boundaryNode info PP QQ
   then au QQ PP - g ((PP : F) * hx) ((QQ : F) * hy) alpha
   else 0)
  + elementLoopAccum powR g info au p eps alpha n QQ PP

/-- `ObjBoundary`: boundary-mismatch energy `½ (u - g)²` of one boundary node. -/
def ObjBoundary (g : F → F → F → F) (x y u alpha : F) : F :=
  0.5 * (u - g x y alpha) * (u - g x y alpha)

/-- `ObjIntegrand`: energy integrand `|∇u|_ε^p / p − f u` at a quadrature point. -/
def ObjIntegrand (powR : F → F → F) (info : GridInfo) (f u : Fin 4 → F)
    (xi eta p eps : F) : F :=
  GradPow powR info (deval u xi eta) p eps / p - eval f xi eta * eval u xi eta

/-- `FormObjectiveLocal` (plap): the local objective value `lobj` before the
cross-process `MPI_Allreduce` (an external collaborator): element quadrature
scaled by `0.25 hx hy`, plus the owned-boundary-node mismatch sums with the
bottom/top-first then side-interior attribution of `jS`/`jE`. -/
def FormObjectiveLocal (powR : F → F → F) (g : F → F → F → F) (info : GridInfo)
    (au : ℤ → ℤ → F) (p eps alpha : F) (n : ℕ) : F :=
  let hx : F := 1 / ((info.mx : F) - 1)
  let hy : F := 1 / ((info.my : F) - 1)
  let elemPart : F := 0.25 * hx * hy *
    ∑ j ∈ Finset.Icc (info.ys + 1) (info.ys + info.ym - 1),
      ∑ i ∈ Finset.Icc (info.xs + 1) (info.xs + info.xm - 1),
        ∑ r ∈ Finset.range n, ∑ s ∈ Finset.range n,
          wq (n - 1) r * wq (n - 1) s *
            ObjIntegrand powR info (fElement powR info i j p alpha)
              (GetUorGElement g info i j au alpha) (zq (n - 1) r) (zq (n - 1) s) p eps
  let bottom : F := if info.ys = 0
    then ∑ i ∈ Finset.Icc info.xs (info.xs + info.xm - 1),
      ObjBoundary g ((i : F) * hx) 0 (au 0 i) alpha
    else 0
  let top : F := if info.ys + info.ym = info.my
    then ∑ i ∈ Finset.Icc info.xs (info.xs + info.xm - 1),
      ObjBoundary g ((i : F) * hx) 1 (au (info.my - 1) i) alpha
    else 0
  let jS : ℤ := if info.ys = 0 then 1 else 0
  let jE : ℤ := if info.ys + info.ym = info.my then info.my - 1 else info.my
  let left : F := if info.xs = 0
    then ∑ j ∈ Finset.Icc jS (jE - 1), ObjBoundary g 0 ((j : F) * hy) (au j 0) alpha
    else 0
  let right : F := if info.xs + info.xm = info.mx
    then ∑ j ∈ Finset.Icc jS (jE - 1),
      ObjBoundary g 1 ((j : F) * hy) (au j (info.mx - 1)) alpha
    else 0
  elemPart + bottom + top + left + right

/-- `PLapCtx`: the per-solve configuration filled by `ConfigureCtx`. -/
structure PLapCtx (F : Type*) where
  p : F
  eps : F
  quaddegree : ℤ

/-- `ConfigureCtx`: option validation at setup.  Rejects `p < 1` first, then a
quadrature degree outside `{1,2,3}`, exactly as the two `SETERRQ` guards do. -/
def ConfigureCtx (p eps : F) (quaddegree : ℤ) : Except String (PLapCtx F) :=
  if p < 1 then Except.error "p >= 1 required"
  else if quaddegree < 1 ∨ 3 < quaddegree then Except.error "quadrature degree n=1,2,3 only"
  else Except.ok ⟨p, eps, quaddegree⟩

/-- The memory visible to `FormFunctionLocal` (plap): the input iterate `au`
and the output residual array `FF`. -/
structure FunMem (F : Type*) where
  au : ℤ → ℤ → F
  FF : ℤ → ℤ → F

/-- State-passing form of `FormFunctionLocal` (plap): residual cells of the
owned patch are overwritten, every other memory location (in particular all
of `au`) is passed through unchanged. -/
def FormFunctionLocalState (powR : F → F → F) (g : F → F → F → F) (info : GridInfo)
    (p eps alpha : F) (n : ℕ) (m : FunMem F) : FunMem F :=
  ⟨m.au,
   fun QQ PP => if ownedNode info PP QQ
     then FormFunctionLocal powR g info m.au p eps alpha n QQ PP
     else m.FF QQ PP⟩

/-- The memory visible to `FormObjectiveLocal`: the input iterate `au` and the
scalar objective output. -/
structure ObjMem (F : Type*) where
  au : ℤ → ℤ → F
  obj : F

/-- State-passing form of `FormObjectiveLocal`: only the objective scalar is
written; `au` is passed through unchanged. -/
def FormObjectiveLocalState (powR : F → F → F) (g : F → F → F → F) (info : GridInfo)
    (p eps alpha : F) (n : ℕ) (m : ObjMem F) : ObjMem F :=
  ⟨m.au, FormObjectiveLocal powR g info m.au p eps alpha n⟩

end Plap

namespace Ice

variable {F : Type*} [LinearOrderedField F]

/-- `AppCtx` of the ice program: the physical and numerical parameters read
once at setup (the fields not used by the embedded routines are omitted). -/
structure AppCtx (F : Type*) where
  L : F
  n_ice : F
  Gamma : F
  D0 : F
  eps : F
  delta : F
  lambda : F
  verif : Bool
  check_admissible : Bool

/-- `Grad`: value of a gradient at a point. -/
structure Grad (F : Type*) where
  x : F
  y : F

/-- `sigma`: slope-dependent part of the SIA flux,
`Γ (|∇H + ∇b|² + δ²)^((n-1)/2)`. -/
def sigma (powR : F → F → F) (gH gb : Grad F) (user : AppCtx F) : F :=
  let sx : F := gH.x + gb.x
  let sy : F := gH.y + gb.y
  let slopesqr : F := sx * sx + sy * sy + user.delta * user.delta
  user.Gamma * powR slopesqr ((user.n_ice - 1) / 2)

/-- `W`: pseudo-velocity from the bed slope, `W = -sigma ∇b`. -/
def W (sig : F) (gb : Grad F) : Grad F := ⟨-sig * gb.x, -sig * gb.y⟩

/-- `DCS`: diffusivity from the continuation scheme,
`D(eps) = (1-eps) sigma |H|^(n+2) + eps D0`. -/
def DCS (powR : F → F → F) (sig H : F) (user : AppCtx F) : F :=
  (1 - user.eps) * sig * powR |H| (user.n_ice + 2) + user.eps * user.D0

/-- `SIAflux`: diffusivity and flux component of the non-sliding SIA on a
general bed; the first component is the output parameter `D`, the second is
`q` (the x-component when `xdir`, else the y-component). -/
def SIAflux (powR : F → F → F) (gH gb : Grad F) (H Hup : F) (xdir : Bool)
    (user : AppCtx F) : F × F :=
  let mysig : F := sigma powR gH gb user
  let myD : F := DCS powR mysig H user
  let myW : Grad F := W mysig gb
  ⟨myD,
   if xdir then -myD * gH.x + myW.x * powR |Hup| (user.n_ice + 2)
   else -myD * gH.y + myW.y * powR |Hup| (user.n_ice + 2)⟩

/-- Modelled from the spec (flux model of the FVE assembler, §4.4): slope
magnitude `σ = Γ·(|∇H+∇b|² + δ²)^((n-1)/2)`, diffusivity continuation
`D(ε) = (1−ε)·σ·|H|^(n+2) + ε·D0`, pseudo-velocity `W = −σ·∇b`, and flux
component `q = −D·∂H/∂x_i + W_i·|H_up|^(n+2)`.  Stated independently of the
source to compare with `SIAflux`. -/
def specFluxModel (powR : F → F → F) (gH gb : Grad F) (H Hup : F) (xdir : Bool)
    (user : AppCtx F) : F :=
  let sig : F := user.Gamma *
    powR ((gH.x + gb.x) ^ 2 + (gH.y + gb.y) ^ 2 + user.delta ^ 2) ((user.n_ice - 1) / 2)
  let D : F := (1 - user.eps) * sig * powR |H| (user.n_ice + 2) + user.eps * user.D0
  let Wx : F := -sig * gb.x
  let Wy : F := -sig * gb.y
  if xdir then -D * gH.x + Wx * powR |Hup| (user.n_ice + 2)
  else -D * gH.y + Wy * powR |Hup| (user.n_ice + 2)

/-- Gradient weight table `gx` of the `Q^1` interpolant. -/
def gx : Fin 4 → F := ![-1, 1, 1, -1]

/-- Gradient weight table `gy` of the `Q^1` interpolant. -/
def gy : Fin 4 → F := ![-1, -1, 1, 1]

/-- `fieldatpt`: value of the `Q^1` interpolant of corner values `f` at the
local element coordinates `(xi, eta) ∈ [0,1]²`. -/
def fieldatpt (xi eta : F) (f : Fin 4 → F) : F :=
  let x : Fin 4 → F := ![1 - xi, xi, xi, 1 - xi]
  let y : Fin 4 → F := ![1 - eta, 1 - eta, eta, eta]
  x 0 * y 0 * f 0 + x 1 * y 1 * f 1 + x 2 * y 2 * f 2 + x 3 * y 3 * f 3

/-- `fieldatptArray`: `fieldatpt` on the element with lower-left node `(u,v)`,
corner values read from the 2D array `f`. -/
def fieldatptArray (u v : ℤ) (xi eta : F) (f : ℤ → ℤ → F) : F :=
  fieldatpt xi eta ![f v u, f v (u + 1), f (v + 1) (u + 1), f (v + 1) u]

/-- `gradfatpt`: gradient of the `Q^1` interpolant at local coordinates,
scaled by the element dimensions `dx`, `dy`. -/
def gradfatpt (xi eta dx dy : F) (f : Fin 4 → F) : Grad F :=
  let x : Fin 4 → F := ![1 - xi, xi, xi, 1 - xi]
  let y : Fin 4 → F := ![1 - eta, 1 - eta, eta, eta]
  ⟨(gx 0 * y 0 * f 0 + gx 1 * y 1 * f 1 + gx 2 * y 2 * f 2 + gx 3 * y 3 * f 3) / dx,
   (x 0 * gy 0 * f 0 + x 1 * gy 1 * f 1 + x 2 * gy 2 * f 2 + x 3 * gy 3 * f 3) / dy⟩

/-- `gradfatptArray`: `gradfatpt` on the element with lower-left node `(u,v)`. -/
def gradfatptArray (u v : ℤ) (xi eta dx dy : F) (f : ℤ → ℤ → F) : Grad F :=
  gradfatpt xi eta dx dy ![f v u, f v (u + 1), f (v + 1) (u + 1), f (v + 1) u]

/-- `je`: element x-offset of quadrature point `s` on the control-volume
boundary of a node. -/
def je : Fin 8 → ℤ := ![0, 0, -1, -1, -1, -1, 0, 0]

/-- `ke`: element y-offset of quadrature point `s`. -/
def ke : Fin 8 → ℤ := ![0, 0, 0, 0, -1, -1, -1, -1]

/-- `ce`: element corner (flux cache slot) used by quadrature point `s`. -/
def ce : Fin 8 → Fin 4 := ![0, 3, 1, 0, 2, 1, 3, 2]

/-- `xdire`: direction of the flux at the 4 cached points of each element. -/
def xdire : Fin 4 → Bool := ![true, false, true, false]

/-- `locx`: local x-coordinates of the 4 cached flux points of an element. -/
def locx : Fin 4 → F := ![0.5, 0.75, 0.5, 0.25]

/-- `locy`: local y-coordinates of the 4 cached flux points of an element. -/
def locy : Fin 4 → F := ![0.25, 0.5, 0.75, 0.5]

/-- `coeff`: signed face lengths multiplying the 8 control-volume boundary
quadrature evaluations. -/
def coeff (dx dy : F) : Fin 8 → F :=
  ![dy / 2, dx / 2, dx / 2, -dy / 2, -dy / 2, -dx / 2, -dx / 2, dy / 2]

/-- The modification applied to the private copy `Hcopy` of the iterate:
boundary nodes are zeroed, all other nodes keep the input value. -/
def Hzero (info : GridInfo) (aHin : ℤ → ℤ → F) : ℤ → ℤ → F := fun k j =>
  if boundaryNode info j k then 0 else aHin k j

/-- `jc`: bed frequency table (x). -/
def jc : Fin 4 → ℤ := ![1, 3, 6, 8]

/-- `kc`: bed frequency table (y). -/
def kc : Fin 4 → ℤ := ![1, 3, 4, 7]

/-- `C`: bed coefficient table of `FormBedLocal`. -/
def Cbed : Fin 4 → Fin 4 → F :=
  ![![2.0, 0.33, -0.55020034, 0.54495520],
    ![0.5, 0.45014486, 0.60551833, -0.52250644],
    ![0.93812068, 0.32638429, -0.24654812, 0.33887052],
    ![0.17592361, -0.35496741, 0.22694547, -0.05280704]]

/-- The synthetic sine-sum bed elevation
`scalec · Σ_{r,s} C[r][s]·sin(jc[r]·Z·x)·sin(kc[s]·Z·y)` computed by
`FormBedLocal` at node `(j,k)` (with `Z = π/L`; `π` is the opaque `piF`). -/
def bedValue (sinR : F → F) (piF : F) (user : AppCtx F) (info : GridInfo)
    (j k : ℤ) : F :=
  let dx : F := user.L / ((info.mx : F) - 1)
  let dy : F := user.L / ((info.my : F) - 1)
  let Z : F := piF / user.L
  let x : F := (j : F) * dx
  let y : F := (k : F) * dy
  let scalec : F := 750
  scalec * ∑ r : Fin 4, ∑ s : Fin 4,
    Cbed r s * sinR ((jc r : F) * Z * x) * sinR ((kc s : F) * Z * y)

/-- The set of nodes `(j,k)` actually assigned by `FormBedLocal` with stencil
width `sw`: the loop rectangle, minus the `continue` clip
`j < 0 ∨ j ≥ mx-1 ∨ k < 0 ∨ k ≥ my-1`. -/
def bedWrites (info : GridInfo) (sw j k : ℤ) : Prop :=
  info.ys - sw ≤ k ∧ k < info.ys + info.ym + sw ∧
  info.xs - sw ≤ j ∧ j < info.xs + info.xm + sw ∧
  ¬(j < 0 ∨ info.mx - 1 ≤ j ∨ k < 0 ∨ info.my - 1 ≤ k)

instance (info : GridInfo) (sw j k : ℤ) : Decidable (bedWrites info sw j k) := by
  unfold bedWrites; infer_instance

/-- `FormBedLocal` as a state transformer on the bed array: nodes in the write
set receive the sine-sum value, all other entries keep their prior contents
`ab0`. -/
def FormBedLocal (sinR : F → F) (piF : F) (user : AppCtx F) (info : GridInfo)
    (sw : ℤ) (ab0 : ℤ → ℤ → F) : ℤ → ℤ → F := fun k j =>
  if bedWrites info sw j k then bedValue sinR piF user info j k else ab0 k j

/-- The elements `(j,k)` processed by the flux loop of the ice
`FormFunctionLocal`: owned elements including ghosts, clipped to the valid
element range. -/
def elemProcessed (info : GridInfo) (j k : ℤ) : Prop :=
  info.ys - 1 ≤ k ∧ k < info.ys + info.ym ∧
  info.xs - 1 ≤ j ∧ j < info.xs + info.xm ∧
  ¬(j < 0 ∨ info.mx - 1 ≤ j ∨ k < 0 ∨ info.my - 1 ≤ k)

instance (info : GridInfo) (j k : ℤ) : Decidable (elemProcessed info j k) := by
  unfold elemProcessed; infer_instance

/-- Node `(j,k)` is a corner of some element processed by the flux loop, so
`ab[k][j]` is read by `gradfatptArray` (and `aH[k][j]` by the field and
gradient evaluations) during flux evaluation. -/
def bedReadByFlux (info : GridInfo) (j k : ℤ) : Prop :=
  ∃ ej ek : ℤ, elemProcessed info ej ek ∧ (j = ej ∨ j = ej + 1) ∧ (k = ek ∨ k = ek + 1)

/-- The cached flux value `aqquad[c][k][j]`: flux at point `c` of the element
with lower-left node `(j,k)`, evaluated from the (boundary-zeroed) thickness
array `aH` and the bed array `ab`, with the bed-slope-sign upwinding rule. -/
def aqquad (powR : F → F → F) (user : AppCtx F) (info : GridInfo)
    (aH ab : ℤ → ℤ → F) (c : Fin 4) (k j : ℤ) : F :=
  let dx : F := user.L / ((info.mx : F) - 1)
  let dy : F := user.L / ((info.my : F) - 1)
  let upmin : F := (1 - user.lambda) * 0.5
  let upmax : F := (1 + user.lambda) * 0.5
  let H : F := fieldatptArray j k (locx c) (locy c) aH
  let gH : Grad F := gradfatptArray j k (locx c) (locy c) dx dy aH
  let gb : Grad F := gradfatptArray j k (locx c) (locy c) dx dy ab
  let Hup : F :=
    if 0 < user.lambda then
      if xdire c then fieldatptArray j k (if gb.x ≤ 0 then upmin else upmax) (locy c) aH
      else fieldatptArray j k (locx c) (if gb.y ≤ 0 then upmin else upmax) aH
    else H
  (SIAflux powR gH gb H Hup (xdire c) user).2

/-- One term of the control-volume quadrature of node `(j,k)`:
`coeff[s] * aqquad[ce[s]][k+ke[s]][j+je[s]]` for a generic flux cache `aq`. -/
def cvTerm (dx dy : F) (aq : Fin 4 → ℤ → ℤ → F) (j k : ℤ) (s : Fin 8) : F :=
  coeff dx dy s * aq (ce s) (k + ke s) (j + je s)

/-- The full control-volume boundary quadrature
`Σ_{s=0}^{7} coeff[s] * aqquad[ce[s]][k+ke[s]][j+je[s]]` of node `(j,k)`. -/
def cvQuad (dx dy : F) (aq : Fin 4 → ℤ → ℤ → F) (j k : ℤ) : F :=
  ∑ s : Fin 8, cvTerm dx dy aq j k s

/-- `radialcoord`: distance from the domain center (via the opaque `sqrtR`). -/
def radialcoord (sqrtR : F → F) (x y : F) (user : AppCtx F) : F :=
  let xc : F := x - user.L / 2
  let yc : F := y - user.L / 2
  sqrtR (xc * xc + yc * yc)

/-- `DomeCMB`: manufactured climatic mass balance of the dome exact solution,
with the radial coordinate clamped away from the center and the margin. -/
def DomeCMB (powR : F → F → F) (sqrtR : F → F) (x y : F) (user : AppCtx F) : F :=
  let domeR : F := 750000
  let domeH0 : F := 3600
  let n : F := user.n_ice
  let pp : F := 1 / n
  let CC : F := user.Gamma * powR domeH0 (2 * n + 2) / powR (2 * domeR * (1 - 1 / n)) n
  let r0 : F := radialcoord sqrtR x y user
  let r1 : F := if r0 < 0.01 then 0.01 else r0
  let r : F := if domeR - 0.01 < r1 then domeR - 0.01 else r1
  let s : F := r / domeR
  let tmp1 : F := powR s pp + powR (1 - s) pp - 1
  let tmp2 : F := 2 * powR s pp + powR (1 - s) (pp - 1) * (1 - 2 * s) - 1
  CC / r * powR tmp1 (n - 1) * tmp2

/-- The climatic mass balance `M` used at interior node `(j,k)`: the dome
manufactured value in verification mode, otherwise the opaque CMB model
queried at the surface elevation `b + H`. -/
def Mterm (powR : F → F → F) (sqrtR : F → F) (cmb : F → F) (user : AppCtx F)
    (info : GridInfo) (ab aH : ℤ → ℤ → F) (j k : ℤ) : F :=
  let dx : F := user.L / ((info.mx : F) - 1)
  let dy : F := user.L / ((info.my : F) - 1)
  if user.verif then DomeCMB powR sqrtR ((j : F) * dx) ((k : F) * dy) user
  else cmb (ab k j + aH k j)

/-- The bed array seen by the residual: all zeros in verification mode
(`VecSet(b, 0.0)`), otherwise the result of `FormBedLocal` with stencil
width 1 over the prior local-vector contents `ab0`. -/
def bedArray (sinR : F → F) (piF : F) (user : AppCtx F) (info : GridInfo)
    (ab0 : ℤ → ℤ → F) : ℤ → ℤ → F :=
  if user.verif then fun _ _ => 0 else FormBedLocal sinR piF user info 1 ab0

/-- The residual array computed by the ice `FormFunctionLocal` when the
admissibility check does not fire: owned boundary nodes receive `aHin`,
owned interior nodes receive `-M dx dy` plus the control-volume quadrature of
the cached fluxes; non-owned cells (not written by the routine) are `0` in
this model. -/
def iceResidual (powR : F → F → F) (sqrtR : F → F) (sinR : F → F) (cmb : F → F)
    (piF : F) (user : AppCtx F) (info : GridInfo) (aHin ab0 : ℤ → ℤ → F) :
    ℤ → ℤ → F :=
  let dx : F := user.L / ((info.mx : F) - 1)
  let dy : F := user.L / ((info.my : F) - 1)
  let aH : ℤ → ℤ → F := Hzero info aHin
  let ab : ℤ → ℤ → F := bedArray sinR piF user info ab0
  let aq : Fin 4 → ℤ → ℤ → F := aqquad powR user info aH ab
  fun k j =>
    if ownedNode info j k then
      if boundaryNode info j k then aHin k j
      else -(Mterm powR sqrtR cmb user info ab aH j k) * dx * dy + cvQuad dx dy aq j k
    else 0

/-- The owned-plus-halo patch over which the first loop of the ice
`FormFunctionLocal` runs (as `(k, j)` pairs), with out-of-grid indices
skipped by the `continue` clip. -/
def icePatch (info : GridInfo) : Finset (ℤ × ℤ) :=
  (Finset.Icc (info.ys - 1) (info.ys + info.ym) ×ˢ
    Finset.Icc (info.xs - 1) (info.xs + info.xm)).filter
    (fun q => ¬(q.2 < 0 ∨ info.mx - 1 < q.2 ∨ q.1 < 0 ∨ info.my - 1 < q.1))

/-- The admissibility guard: with `check_admissible` on, some owned-or-halo
entry of the input iterate is negative (the condition under which the first
loop raises `SETERRQ`). -/
def admissibleViolation (user : AppCtx F) (info : GridInfo) (aHin : ℤ → ℤ → F) : Prop :=
  user.check_admissible = true ∧ ∃ q ∈ icePatch info, aHin q.1 q.2 < 0

instance (user : AppCtx F) (info : GridInfo) (aHin : ℤ → ℤ → F) :
    Decidable (admissibleViolation user info aHin) := by
  unfold admissibleViolation; infer_instance

/-- `FormFunctionLocal` (ice): raises the admissibility error when the guard
fires, otherwise returns the residual array. -/
def FormFunctionLocal (powR : F → F → F) (sqrtR : F → F) (sinR : F → F)
    (cmb : F → F) (piF : F) (user : AppCtx F) (info : GridInfo)
    (aHin ab0 : ℤ → ℤ → F) : Except Unit (ℤ → ℤ → F) :=
  if admissibleViolation user info aHin then Except.error ()
  else Except.ok (iceResidual powR sqrtR sinR cmb piF user info aHin ab0)

/-- The memory visible to the ice `FormFunctionLocal`: the input iterate
`aHin` and the output residual array `FF`. -/
structure IceMem (F : Type*) where
  aHin : ℤ → ℤ → F
  FF : ℤ → ℤ → F

/-- State-passing form of the ice `FormFunctionLocal`: on success the owned
residual cells are overwritten and `aHin` is passed through unchanged (the
zero-boundary modification goes to the private copy `Hzero aHin`, never to
`aHin`). -/
def FormFunctionLocalState (powR : F → F → F) (sqrtR : F → F) (sinR : F → F)
    (cmb : F → F) (piF : F) (user : AppCtx F) (info : GridInfo)
    (ab0 : ℤ → ℤ → F) (m : IceMem F) : Except Unit (IceMem F) :=
  match FormFunctionLocal powR sqrtR sinR cmb piF user info m.aHin ab0 with
  | Except.error e => Except.error e
  | Except.ok R =>
      Except.ok ⟨m.aHin,
        fun k j => if ownedNode info j k then R k j else m.FF k j⟩

/-- The parameters with the admissibility check switched off (all other
fields unchanged). -/
def withoutAdmissibleCheck (user : AppCtx F) : AppCtx F :=
  { user with check_admissible := false }

/-- `iceSetupCheck`: the option-time guard on the Glen exponent,
`n_ice ≤ 1` is rejected. -/
def iceSetupCheck (n_ice : F) : Except String Unit :=
  if n_ice ≤ 1 then Except.error "n > 1.0 is required" else Except.ok ()

end Ice

section Theorems

variable {F : Type*} [LinearOrderedField F]

/-- Helper: the element loop adds nothing to a residual cell that is not both
an interior node and an owned node (every guard in the loop fails for it). -/
theorem elementLoopAccum_eq_zero (powR : F → F → F) (g : F → F → F → F)
    (info : GridInfo) (au : ℤ → ℤ → F) (p eps alpha : F) (n : ℕ) (QQ PP : ℤ)
    (h : ¬(interiorNode info PP QQ ∧ ownedNode info PP QQ)) :
    Plap.elementLoopAccum powR g info au p eps alpha n QQ PP = 0 := by
  unfold Plap.elementLoopAccum
  apply Finset.sum_eq_zero
  intro j _
  apply Finset.sum_eq_zero
  intro i _
  apply Finset.sum_eq_zero
  intro l _
  rw [if_neg]
  rintro ⟨e1, e2, hint, hown⟩
  rw [e1, e2] at hint hown
  exact h ⟨hint, hown⟩

/-- Helper: at any boundary node of the owned patch, the plap residual is the
Dirichlet mismatch `u − g`, untouched by the element loop. -/
theorem plap_FF_boundary (powR : F → F → F) (g : F → F → F → F)
    (info : GridInfo) (au : ℤ → ℤ → F) (p eps alpha : F) (n : ℕ) (PP QQ : ℤ)
    (hb : boundaryNode info PP QQ) :
    Plap.FormFunctionLocal powR g info au p eps alpha n QQ PP
      = au QQ PP - g ((PP : F) * (1 / ((info.mx : F) - 1)))
          ((QQ : F) * (1 / ((info.my : F) - 1))) alpha := by
  simp only [Plap.FormFunctionLocal]
  rw [if_pos hb, elementLoopAccum_eq_zero]
  · ring
  · rintro ⟨hint, -⟩
    unfold boundaryNode at hb
    unfold interiorNode at hint
    omega

/-- C7: the bilinear shape functions `chi` form a partition of unity on
`[-1,1]²`, and `chi L` is `1` at corner `L` and `0` at the other corners. -/
theorem chi_partition_of_unity_and_kronecker (xi eta : F)
    (hx1 : -1 ≤ xi) (hx2 : xi ≤ 1) (he1 : -1 ≤ eta) (he2 : eta ≤ 1) :
    (∑ L : Fin 4, Plap.chi L xi eta) = 1 ∧
    ∀ L M : Fin 4, Plap.chi L ((Plap.xiL M : F)) (Plap.etaL M) = if L = M then 1 else 0 := by
  constructor
  · rw [Fin.sum_univ_four]
    norm_num [Plap.chi, Plap.xiL, Plap.etaL]
    ring
  · intro L M
    fin_cases L <;> fin_cases M <;> norm_num [Plap.chi, Plap.xiL, Plap.etaL, Fin.ext_iff]

/-- Witness for C7 at the center of the reference element. -/
theorem chi_partition_of_unity_and_kronecker_witness :
    ((∑ L : Fin 4, Plap.chi L (0 : ℚ) 0) = 1 ∧
     ∀ L M : Fin 4, Plap.chi L ((Plap.xiL M : ℚ)) (Plap.etaL M) = if L = M then 1 else 0) :=
  chi_partition_of_unity_and_kronecker 0 0 (by norm_num) (by norm_num)
    (by norm_num) (by norm_num)

/-- C4: the flux component computed by `SIAflux` agrees, for every input,
with the spec flux model `q = −D·∂H/∂x_i + W_i·|H_up|^(n+2)` built from
`σ = Γ(|∇H+∇b|²+δ²)^((n-1)/2)`, `D = (1−ε)σ|H|^(n+2) + ε·D0`, `W = −σ∇b`. -/
theorem SIAflux_matches_spec_flux_model (powR : F → F → F) (gH gb : Ice.Grad F)
    (H Hup : F) (xdir : Bool) (user : Ice.AppCtx F) :
    (Ice.SIAflux powR gH gb H Hup xdir user).2
      = Ice.specFluxModel powR gH gb H Hup xdir user := by
  have harg : (gH.x + gb.x) * (gH.x + gb.x) + (gH.y + gb.y) * (gH.y + gb.y)
      + user.delta * user.delta
      = (gH.x + gb.x) ^ 2 + (gH.y + gb.y) ^ 2 + user.delta ^ 2 := by ring
  cases xdir <;>
    simp only [Ice.SIAflux, Ice.specFluxModel, Ice.sigma, Ice.DCS, Ice.W,
      Bool.false_eq_true, if_false, if_true, harg]

/-- C6: neither residual/objective evaluation mutates its input iterate: the
state-passing forms return `au` (plap function and objective) and `aHin`
(ice function) unchanged; all writes go to the output array, the objective
scalar, or private buffers (the zero-boundary modification lives in the
private copy `Hzero aHin`). -/
theorem assemblers_do_not_mutate_input (powR : F → F → F) (g : F → F → F → F)
    (infoP : GridInfo) (p eps alpha : F) (n : ℕ)
    (m : Plap.FunMem F) (mo : Plap.ObjMem F)
    (sqrtR sinR cmb : F → F) (piF : F) (user : Ice.AppCtx F) (infoI : GridInfo)
    (ab0 : ℤ → ℤ → F) (mi : Ice.IceMem F) :
    (Plap.FormFunctionLocalState powR g infoP p eps alpha n m).au = m.au ∧
    (Plap.FormObjectiveLocalState powR g infoP p eps alpha n mo).au = mo.au ∧
    (((Ice.FormFunctionLocalState powR sqrtR sinR cmb piF user infoI ab0 mi).toOption.map
        Ice.IceMem.aHin).getD mi.aHin) = mi.aHin := by
  refine ⟨rfl, rfl, ?_⟩
  unfold Ice.FormFunctionLocalState
  cases hE : Ice.FormFunctionLocal powR sqrtR sinR cmb piF user infoI mi.aHin ab0 <;>
    simp [Except.toOption]

/-- C9: configuration validation is exactly the setup-time checks:
`ConfigureCtx` succeeds iff `p ≥ 1` and `quaddegree ∈ {1,2,3}`, the ice
option check succeeds iff `n_ice > 1`, and a residual evaluation (here, the
ice one, the only evaluator with an error path) never fails when the
admissibility check is off — no per-call re-validation of parameters. -/
theorem config_errors_only_at_setup :
    (∀ (p eps : F) (qd : ℤ),
      (Plap.ConfigureCtx p eps qd).isOk = true ↔ (1 ≤ p ∧ (qd = 1 ∨ qd = 2 ∨ qd = 3))) ∧
    (∀ n_ice : F, (Ice.iceSetupCheck n_ice).isOk = true ↔ 1 < n_ice) ∧
    (∀ (powR : F → F → F) (sqrtR sinR cmb : F → F) (piF : F) (user : Ice.AppCtx F)
      (info : GridInfo) (aHin ab0 : ℤ → ℤ → F),
      (Ice.FormFunctionLocal powR sqrtR sinR cmb piF (Ice.withoutAdmissibleCheck user)
        info aHin ab0).isOk = true) := by
  refine ⟨?_, ?_, ?_⟩
  · intro p eps qd
    unfold Plap.ConfigureCtx
    split_ifs with h1 h2
    · simp only [Except.isOk, Except.toBool, Bool.false_eq_true, false_iff]
      rintro ⟨hp, -⟩
      exact absurd h1 (not_lt.2 hp)
    · simp only [Except.isOk, Except.toBool, Bool.false_eq_true, false_iff]
      rintro ⟨-, hq⟩
      omega
    · simp only [Except.isOk, Except.toBool, true_iff]
      exact ⟨not_lt.1 h1, by omega⟩
  · intro n_ice
    unfold Ice.iceSetupCheck
    split_ifs with h1
    · simp only [Except.isOk, Except.toBool, Bool.false_eq_true, false_iff, not_lt]
      exact h1
    · simp only [Except.isOk, Except.toBool, true_iff]
      exact not_le.1 h1
  · intro powR sqrtR sinR cmb piF user info aHin ab0
    unfold Ice.FormFunctionLocal
    rw [if_neg]
    · rfl
    · rintro ⟨hc, -⟩
      simp [Ice.withoutAdmissibleCheck] at hc

/-- C10: for every element in the processed range (`1 ≤ i ≤ mx-1`,
`1 ≤ j ≤ my-1`), `GetUorGElement` returns the boundary function `g` at every
corner on the global boundary and the iterate `au` at every interior corner;
consequently its output, hence the element quadrature, does not depend on the
iterate values at global-boundary nodes. -/
theorem GetUorGElement_boundary_values (g : F → F → F → F) (info : GridInfo)
    (i j : ℤ) (au : ℤ → ℤ → F) (alpha : F)
    (h1 : 1 ≤ i) (h2 : i ≤ info.mx - 1) (h3 : 1 ≤ j) (h4 : j ≤ info.my - 1) :
    (∀ L : Fin 4,
      Plap.GetUorGElement g info i j au alpha L =
        if boundaryNode info (i + Plap.li L) (j + Plap.lj L)
        then g (((i + Plap.li L : ℤ) : F) * (1 / ((info.mx : F) - 1)))
               (((j + Plap.lj L : ℤ) : F) * (1 / ((info.my : F) - 1))) alpha
        else au (j + Plap.lj L) (i + Plap.li L)) ∧
    (∀ au' : ℤ → ℤ → F, (∀ a b : ℤ, ¬ boundaryNode info a b → au' b a = au b a) →
      Plap.GetUorGElement g info i j au' alpha = Plap.GetUorGElement g info i j au alpha) := by
  constructor
  · intro L
    fin_cases L
    · show (if i = info.mx - 1 ∨ j = info.my - 1
          then g ((i : F) * (1 / ((info.mx : F) - 1))) ((j : F) * (1 / ((info.my : F) - 1))) alpha
          else au j i)
        = if boundaryNode info (i + 0) (j + 0)
          then g (((i + 0 : ℤ) : F) * (1 / ((info.mx : F) - 1)))
                 (((j + 0 : ℤ) : F) * (1 / ((info.my : F) - 1))) alpha
          else au (j + 0) (i + 0)
      simp only [add_zero]
      simp only [show (i = info.mx - 1 ∨ j = info.my - 1) ↔ boundaryNode info i j from by
        unfold boundaryNode; omega]
    · show (if i - 1 = 0 ∨ j = info.my - 1
          then g ((i : F) * (1 / ((info.mx : F) - 1)) - 1 / ((info.mx : F) - 1))
                 ((j : F) * (1 / ((info.my : F) - 1))) alpha
          else au j (i - 1))
        = if boundaryNode info (i + -1) (j + 0)
          then g (((i + -1 : ℤ) : F) * (1 / ((info.mx : F) - 1)))
                 (((j + 0 : ℤ) : F) * (1 / ((info.my : F) - 1))) alpha
          else au (j + 0) (i + -1)
      simp only [add_zero, Int.add_neg_one]
      simp only [show (i - 1 = 0 ∨ j = info.my - 1) ↔ boundaryNode info (i - 1) j from by
        unfold boundaryNode; omega]
      split_ifs with hc
      · congr 1
        push_cast
        ring
      · rfl
    · show (if i - 1 = 0 ∨ j - 1 = 0
          then g ((i : F) * (1 / ((info.mx : F) - 1)) - 1 / ((info.mx : F) - 1))
                 ((j : F) * (1 / ((info.my : F) - 1)) - 1 / ((info.my : F) - 1)) alpha
          else au (j - 1) (i - 1))
        = if boundaryNode info (i + -1) (j + -1)
          then g (((i + -1 : ℤ) : F) * (1 / ((info.mx : F) - 1)))
                 (((j + -1 : ℤ) : F) * (1 / ((info.my : F) - 1))) alpha
          else au (j + -1) (i + -1)
      simp only [Int.add_neg_one]
      simp only [show (i - 1 = 0 ∨ j - 1 = 0) ↔ boundaryNode info (i - 1) (j - 1) from by
        unfold boundaryNode; omega]
      split_ifs with hc
      · congr 1 <;> push_cast <;> ring
      · rfl
    · show (if i = info.mx - 1 ∨ j - 1 = 0
          then g ((i : F) * (1 / ((info.mx : F) - 1)))
                 ((j : F) * (1 / ((info.my : F) - 1)) - 1 / ((info.my : F) - 1)) alpha
          else au (j - 1) i)
        = if boundaryNode info (i + 0) (j + -1)
          then g (((i + 0 : ℤ) : F) * (1 / ((info.mx : F) - 1)))
                 (((j + -1 : ℤ) : F) * (1 / ((info.my : F) - 1))) alpha
          else au (j + -1) (i + 0)
      simp only [add_zero, Int.add_neg_one]
      simp only [show (i = info.mx - 1 ∨ j - 1 = 0) ↔ boundaryNode info i (j - 1) from by
        unfold boundaryNode; omega]
      split_ifs with hc
      · congr 1 <;> push_cast <;> ring
      · rfl
  · intro au' hagree
    funext L
    fin_cases L
    · show (if i = info.mx - 1 ∨ j = info.my - 1
          then g ((i : F) * (1 / ((info.mx : F) - 1))) ((j : F) * (1 / ((info.my : F) - 1))) alpha
          else au' j i)
        = if i = info.mx - 1 ∨ j = info.my - 1
          then g ((i : F) * (1 / ((info.mx : F) - 1))) ((j : F) * (1 / ((info.my : F) - 1))) alpha
          else au j i
      split_ifs with hc
      · rfl
      · exact hagree i j (by unfold boundaryNode; omega)
    · show (if i - 1 = 0 ∨ j = info.my - 1
          then g ((i : F) * (1 / ((info.mx : F) - 1)) - 1 / ((info.mx : F) - 1))
                 ((j : F) * (1 / ((info.my : F) - 1))) alpha
          else au' j (i - 1))
        = if i - 1 = 0 ∨ j = info.my - 1
          then g ((i : F) * (1 / ((info.mx : F) - 1)) - 1 / ((info.mx : F) - 1))
                 ((j : F) * (1 / ((info.my : F) - 1))) alpha
          else au j (i - 1)
      split_ifs with hc
      · rfl
      · exact hagree (i - 1) j (by unfold boundaryNode; omega)
    · show (if i - 1 = 0 ∨ j - 1 = 0
          then g ((i : F) * (1 / ((info.mx : F) - 1)) - 1 / ((info.mx : F) - 1))
                 ((j : F) * (1 / ((info.my : F) - 1)) - 1 / ((info.my : F) - 1)) alpha
          else au' (j - 1) (i - 1))
        = if i - 1 = 0 ∨ j - 1 = 0
          then g ((i : F) * (1 / ((info.mx : F) - 1)) - 1 / ((info.mx : F) - 1))
                 ((j : F) * (1 / ((info.my : F) - 1)) - 1 / ((info.my : F) - 1)) alpha
          else au (j - 1) (i - 1)
      split_ifs with hc
      · rfl
      · exact hagree (i - 1) (j - 1) (by unfold boundaryNode; omega)
    · show (if i = info.mx - 1 ∨ j - 1 = 0
          then g ((i : F) * (1 / ((info.mx : F) - 1)))
                 ((j : F) * (1 / ((info.my : F) - 1)) - 1 / ((info.my : F) - 1)) alpha
          else au' (j - 1) i)
        = if i = info.mx - 1 ∨ j - 1 = 0
          then g ((i : F) * (1 / ((info.mx : F) - 1)))
                 ((j : F) * (1 / ((info.my : F) - 1)) - 1 / ((info.my : F) - 1)) alpha
          else au (j - 1) i
      split_ifs with hc
      · rfl
      · exact hagree i (j - 1) (by unfold boundaryNode; omega)

/-- Witness for C10 on the default 3×3 grid at element (1,1). -/
theorem GetUorGElement_boundary_values_witness :
    ((∀ L : Fin 4,
      Plap.GetUorGElement (fun x y a => x + y + a) ⟨3, 3, 0, 3, 0, 3⟩ 1 1
          (fun _ _ => (7 : ℚ)) 0 L =
        if boundaryNode ⟨3, 3, 0, 3, 0, 3⟩ (1 + Plap.li L) (1 + Plap.lj L)
        then (fun x y a => x + y + a)
               (((1 + Plap.li L : ℤ) : ℚ) * (1 / (((3 : ℤ) : ℚ) - 1)))
               (((1 + Plap.lj L : ℤ) : ℚ) * (1 / (((3 : ℤ) : ℚ) - 1))) 0
        else (fun _ _ => (7 : ℚ)) (1 + Plap.lj L) (1 + Plap.li L)) ∧
    (∀ au' : ℤ → ℤ → ℚ,
      (∀ a b : ℤ, ¬ boundaryNode ⟨3, 3, 0, 3, 0, 3⟩ a b → au' b a = (fun _ _ => (7 : ℚ)) b a) →
      Plap.GetUorGElement (fun x y a => x + y + a) ⟨3, 3, 0, 3, 0, 3⟩ 1 1 au' 0
        = Plap.GetUorGElement (fun x y a => x + y + a) ⟨3, 3, 0, 3, 0, 3⟩ 1 1
            (fun _ _ => (7 : ℚ)) 0)) :=
  GetUorGElement_boundary_values (fun x y a => x + y + a) ⟨3, 3, 0, 3, 0, 3⟩ 1 1
    (fun _ _ => (7 : ℚ)) 0 (by norm_num) (by norm_num) (by norm_num) (by norm_num)

/-- Helper: at an owned boundary node, the ice residual is exactly the input
thickness value (`H − 0`). -/
theorem iceResidual_boundary (powR : F → F → F) (sqrtR sinR cmb : F → F) (piF : F)
    (user : Ice.AppCtx F) (info : GridInfo) (aHin ab0 : ℤ → ℤ → F) (jj kk : ℤ)
    (hb : boundaryNode info jj kk) (ho : ownedNode info jj kk) :
    Ice.iceResidual powR sqrtR sinR cmb piF user info aHin ab0 kk jj = aHin kk jj := by
  simp only [Ice.iceResidual]
  rw [if_pos ho, if_pos hb]

/-- C3: at every owned global-boundary node the residual is exactly
`u(node) − g(node)` (plap) respectively `H(node) − 0` (ice), for every input
iterate, and it depends only on the iterate value at that node (the element
and flux accumulation loops never touch a boundary residual). -/
theorem boundary_residual_exact (powR : F → F → F) (g : F → F → F → F)
    (infoP : GridInfo) (au : ℤ → ℤ → F) (p eps alpha : F) (n : ℕ) (i j : ℤ)
    (sqrtR sinR cmb : F → F) (piF : F) (user : Ice.AppCtx F) (infoI : GridInfo)
    (aHin ab0 : ℤ → ℤ → F) (jj kk : ℤ)
    (hbP : boundaryNode infoP i j) (hoP : ownedNode infoP i j)
    (hbI : boundaryNode infoI jj kk) (hoI : ownedNode infoI jj kk) :
    (Plap.FormFunctionLocal powR g infoP au p eps alpha n j i
      = au j i - g ((i : F) * (1 / ((infoP.mx : F) - 1)))
          ((j : F) * (1 / ((infoP.my : F) - 1))) alpha) ∧
    (Ice.iceResidual powR sqrtR sinR cmb piF user infoI aHin ab0 kk jj = aHin kk jj) ∧
    (∀ au' : ℤ → ℤ → F, au' j i = au j i →
      Plap.FormFunctionLocal powR g infoP au' p eps alpha n j i
        = Plap.FormFunctionLocal powR g infoP au p eps alpha n j i) ∧
    (∀ aHin' : ℤ → ℤ → F, aHin' kk jj = aHin kk jj →
      Ice.iceResidual powR sqrtR sinR cmb piF user infoI aHin' ab0 kk jj
        = Ice.iceResidual powR sqrtR sinR cmb piF user infoI aHin ab0 kk jj) := by
  refine ⟨plap_FF_boundary powR g infoP au p eps alpha n i j hbP, 
    iceResidual_boundary powR sqrtR sinR cmb piF user infoI aHin ab0 jj kk hbI hoI, ?_, ?_⟩
  · intro au' hau
    rw [plap_FF_boundary powR g infoP au' p eps alpha n i j hbP,
      plap_FF_boundary powR g infoP au p eps alpha n i j hbP, hau]
  · intro aHin' hH
    rw [iceResidual_boundary powR sqrtR sinR cmb piF user infoI aHin' ab0 jj kk hbI hoI,
      iceResidual_boundary powR sqrtR sinR cmb piF user infoI aHin ab0 jj kk hbI hoI, hH]

/-- The default single-process 3×3 grid, used by concrete witnesses. -/
def qGrid3 : GridInfo := ⟨3, 3, 0, 3, 0, 3⟩

/-- A concrete ice parameter set over `ℚ` (admissibility check off). -/
def qUser : Ice.AppCtx ℚ := ⟨1, 3, 1, 1, 0, 0, 0, false, false⟩

/-- Witness for C3: left-edge node (0,1) for plap, right-edge node (2,1) for ice. -/
theorem boundary_residual_exact_witness :
    Plap.FormFunctionLocal (fun x _ : ℚ => x) (fun x y a : ℚ => x + y + a) qGrid3
        (fun _ _ => (2 : ℚ)) 4 0 0 2 1 0
      = 2 - ((0 : ℤ) : ℚ) * (1 / ((qGrid3.mx : ℚ) - 1))
          - ((1 : ℤ) : ℚ) * (1 / ((qGrid3.my : ℚ) - 1)) - 0 ∧
    Ice.iceResidual (fun x _ : ℚ => x) id id id 0 qUser qGrid3 (fun _ _ => (4 : ℚ))
        (fun _ _ => 0) 1 2 = 4 := by
  have h := boundary_residual_exact (fun x _ : ℚ => x) (fun x y a : ℚ => x + y + a) qGrid3
    (fun _ _ => (2 : ℚ)) 4 0 0 2 0 1 id id id 0 qUser qGrid3 (fun _ _ => (4 : ℚ))
    (fun _ _ => 0) 2 1 (by decide) (by decide) (by decide) (by decide)
  refine ⟨?_, h.2.1⟩
  rw [h.1]
  ring

/-- C5: with `check_admissible` on, any owned-or-halo negative thickness makes
the ice residual call return the admissibility error (and no residual); when
every owned-or-halo value is nonnegative the call succeeds with the residual. -/
theorem ice_admissibility_error_iff (powR : F → F → F) (sqrtR sinR cmb : F → F)
    (piF : F) (user : Ice.AppCtx F) (info : GridInfo) (aHin ab0 : ℤ → ℤ → F) :
    (user.check_admissible = true → (∃ q ∈ Ice.icePatch info, aHin q.1 q.2 < 0) →
      Ice.FormFunctionLocal powR sqrtR sinR cmb piF user info aHin ab0 = Except.error ()) ∧
    ((∀ q ∈ Ice.icePatch info, 0 ≤ aHin q.1 q.2) →
      Ice.FormFunctionLocal powR sqrtR sinR cmb piF user info aHin ab0
        = Except.ok (Ice.iceResidual powR sqrtR sinR cmb piF user info aHin ab0)) := by
  constructor
  · intro hc hex
    unfold Ice.FormFunctionLocal
    rw [if_pos]
    exact ⟨hc, hex⟩
  · intro hpos
    unfold Ice.FormFunctionLocal
    rw [if_neg]
    rintro ⟨-, q, hq, hneg⟩
    exact absurd hneg (not_lt.2 (hpos q hq))

/-- The concrete ice parameter set with the admissibility check enabled. -/
def qUserCheck : Ice.AppCtx ℚ := ⟨1, 3, 1, 1, 0, 0, 0, false, true⟩

/-- Witness for C5: a patch with one all-negative iterate errors, an
all-nonnegative iterate succeeds. -/
theorem ice_admissibility_error_iff_witness :
    Ice.FormFunctionLocal (fun x _ : ℚ => x) id id id 0 qUserCheck qGrid3
        (fun _ _ => (-1 : ℚ)) (fun _ _ => 0) = Except.error () ∧
    Ice.FormFunctionLocal (fun x _ : ℚ => x) id id id 0 qUserCheck qGrid3
        (fun _ _ => (1 : ℚ)) (fun _ _ => 0)
      = Except.ok (Ice.iceResidual (fun x _ : ℚ => x) id id id 0 qUserCheck qGrid3
          (fun _ _ => (1 : ℚ)) (fun _ _ => 0)) :=
  ⟨(ice_admissibility_error_iff (fun x _ : ℚ => x) id id id 0 qUserCheck qGrid3
      (fun _ _ => (-1 : ℚ)) (fun _ _ => 0)).1 rfl
      ⟨(0, 0), by decide, by norm_num⟩,
   (ice_admissibility_error_iff (fun x _ : ℚ => x) id id id 0 qUserCheck qGrid3
      (fun _ _ => (1 : ℚ)) (fun _ _ => 0)).2 (fun q _ => by norm_num)⟩

/-- The default single-process 5×5 ice grid. -/
def qGrid5 : GridInfo := ⟨5, 5, 0, 5, 0, 5⟩

/-- C8 (a code bug): on the default 5×5 grid the flux loop reads the bed value
at node (4,0) (a corner of processed element (3,0), with `j = mx-1`), but
`FormBedLocal` never writes that node — its clip skips `j ≥ mx-1` and
`k ≥ my-1` — so the value read is the prior (stale) local-vector content, not
the synthetic sine sum; the neighboring node (3,0) is written. -/
theorem bed_boundary_corners_read_but_not_written :
    Ice.bedReadByFlux qGrid5 4 0 ∧
    ¬ Ice.bedWrites qGrid5 1 4 0 ∧
    Ice.bedWrites qGrid5 1 3 0 ∧
    (∀ (sinR : ℚ → ℚ) (piF : ℚ) (user : Ice.AppCtx ℚ) (ab0 : ℤ → ℤ → ℚ),
      Ice.FormBedLocal sinR piF user qGrid5 1 ab0 0 4 = ab0 0 4) := by
  refine ⟨⟨3, 0, by decide, Or.inr rfl, Or.inl rfl⟩, by decide, by decide, ?_⟩
  intro sinR piF user ab0
  unfold Ice.FormBedLocal
  rw [if_neg (by decide)]

/-- Helper: a double sum over a rectangle of an indicator pinned at the single
point `(A, B)` collapses to the value there. -/
theorem sum_sum_pick (I J : Finset ℤ) (A B : ℤ) (c : ℤ → ℤ → F)
    (hA : A ∈ I) (hB : B ∈ J) :
    (∑ j ∈ J, ∑ i ∈ I, if i = A ∧ j = B then c i j else 0) = c A B := by
  rw [Finset.sum_eq_single_of_mem B hB]
  · simp only [eq_self_iff_true, and_true]
    rw [Finset.sum_ite_eq' I A (fun i => c i B)]
    exact if_pos hA
  · intro b _ hne
    apply Finset.sum_eq_zero
    intro i _
    rw [if_neg]
    rintro ⟨-, h2⟩
    exact hne h2

/-- Helper: for an interior owned node, the element loop accumulates exactly
one contribution from each of the four elements having the node as local
corner `l` (the element with upper-right node `(PP - li[l], QQ - lj[l])`). -/
theorem elementLoopAccum_interior (powR : F → F → F) (g : F → F → F → F)
    (info : GridInfo) (au : ℤ → ℤ → F) (p eps alpha : F) (n : ℕ) (PP QQ : ℤ)
    (hint : interiorNode info PP QQ) (hown : ownedNode info PP QQ) :
    Plap.elementLoopAccum powR g info au p eps alpha n QQ PP
      = ∑ l : Fin 4, Plap.elemNodeContrib powR g info au p eps alpha n
          (PP - Plap.li l) (QQ - Plap.lj l) l := by
  unfold Plap.elementLoopAccum
  calc (∑ j ∈ Finset.Icc (max 1 info.ys) (min (info.my - 1) (info.ys + info.ym)),
          ∑ i ∈ Finset.Icc (max 1 info.xs) (min (info.mx - 1) (info.xs + info.xm)),
            ∑ l : Fin 4,
              if i + Plap.li l = PP ∧ j + Plap.lj l = QQ
                  ∧ interiorNode info (i + Plap.li l) (j + Plap.lj l)
                  ∧ ownedNode info (i + Plap.li l) (j + Plap.lj l)
              then Plap.elemNodeContrib powR g info au p eps alpha n i j l else 0)
      = ∑ j ∈ Finset.Icc (max 1 info.ys) (min (info.my - 1) (info.ys + info.ym)),
          ∑ l : Fin 4,
            ∑ i ∈ Finset.Icc (max 1 info.xs) (min (info.mx - 1) (info.xs + info.xm)),
              if i + Plap.li l = PP ∧ j + Plap.lj l = QQ
                  ∧ interiorNode info (i + Plap.li l) (j + Plap.lj l)
                  ∧ ownedNode info (i + Plap.li l) (j + Plap.lj l)
              then Plap.elemNodeContrib powR g info au p eps alpha n i j l else 0 :=
        Finset.sum_congr rfl (fun j _ => Finset.sum_comm)
    _ = ∑ l : Fin 4,
          ∑ j ∈ Finset.Icc (max 1 info.ys) (min (info.my - 1) (info.ys + info.ym)),
            ∑ i ∈ Finset.Icc (max 1 info.xs) (min (info.mx - 1) (info.xs + info.xm)),
              if i + Plap.li l = PP ∧ j + Plap.lj l = QQ
                  ∧ interiorNode info (i + Plap.li l) (j + Plap.lj l)
                  ∧ ownedNode info (i + Plap.li l) (j + Plap.lj l)
              then Plap.elemNodeContrib powR g info au p eps alpha n i j l else 0 :=
        Finset.sum_comm
    _ = ∑ l : Fin 4, Plap.elemNodeContrib powR g info au p eps alpha n
          (PP - Plap.li l) (QQ - Plap.lj l) l := by
        apply Finset.sum_congr rfl
        intro l _
        have hli : Plap.li l = 0 ∨ Plap.li l = -1 := by fin_cases l <;> decide
        have hlj : Plap.lj l = 0 ∨ Plap.lj l = -1 := by fin_cases l <;> decide
        have hiff : ∀ i j : ℤ,
            (i + Plap.li l = PP ∧ j + Plap.lj l = QQ
              ∧ interiorNode info (i + Plap.li l) (j + Plap.lj l)
              ∧ ownedNode info (i + Plap.li l) (j + Plap.lj l))
            ↔ (i = PP - Plap.li l ∧ j = QQ - Plap.lj l) := by
          intro i j
          constructor
          · rintro ⟨e1, e2, -, -⟩
            omega
          · rintro ⟨e1, e2⟩
            have e1h : i + Plap.li l = PP := by omega
            have e2h : j + Plap.lj l = QQ := by omega
            refine ⟨e1h, e2h, ?_, ?_⟩
            · rw [e1h, e2h]; exact hint
            · rw [e1h, e2h]; exact hown
        simp only [hiff]
        apply sum_sum_pick
        · obtain ⟨hi1, hi2, hi3, hi4⟩ := hint
          obtain ⟨ho1, ho2, ho3, ho4⟩ := hown
          simp only [Finset.mem_Icc]
          omega
        · obtain ⟨hi1, hi2, hi3, hi4⟩ := hint
          obtain ⟨ho1, ho2, ho3, ho4⟩ := hown
          simp only [Finset.mem_Icc]
          omega

/-- C1: the residual of an interior owned node is the sum of exactly the four
element contributions having it as a corner (local corner 0 of element
`(PP,QQ)`, 1 of `(PP+1,QQ)`, 2 of `(PP+1,QQ+1)`, 3 of `(PP,QQ+1)`), each
counted once; and the element loop adds nothing at all to any node that fails
the half-open ownership test, so a node accumulates only on its owner. -/
theorem plap_residual_exactly_four_element_contributions (powR : F → F → F)
    (g : F → F → F → F) (info : GridInfo) (au : ℤ → ℤ → F) (p eps alpha : F)
    (n : ℕ) (PP QQ : ℤ)
    (hint : interiorNode info PP QQ) (hown : ownedNode info PP QQ) :
    (Plap.FormFunctionLocal powR g info au p eps alpha n QQ PP
      = Plap.elemNodeContrib powR g info au p eps alpha n PP QQ 0
        + Plap.elemNodeContrib powR g info au p eps alpha n (PP + 1) QQ 1
        + Plap.elemNodeContrib powR g info au p eps alpha n (PP + 1) (QQ + 1) 2
        + Plap.elemNodeContrib powR g info au p eps alpha n PP (QQ + 1) 3) ∧
    (∀ PQ QqQ : ℤ, ¬ ownedNode info PQ QqQ →
      Plap.elementLoopAccum powR g info au p eps alpha n QqQ PQ = 0) := by
  constructor
  · simp only [Plap.FormFunctionLocal]
    rw [if_neg (show ¬ boundaryNode info PP QQ from by
      obtain ⟨a, b, c, d⟩ := hint
      unfold boundaryNode
      omega), zero_add]
    rw [elementLoopAccum_interior powR g info au p eps alpha n PP QQ hint hown,
      Fin.sum_univ_four]
    norm_num [show Plap.li 0 = 0 from rfl, show Plap.li 1 = -1 from rfl,
      show Plap.li 2 = -1 from rfl, show Plap.li 3 = 0 from rfl,
      show Plap.lj 0 = 0 from rfl, show Plap.lj 1 = 0 from rfl,
      show Plap.lj 2 = -1 from rfl, show Plap.lj 3 = -1 from rfl, sub_neg_eq_add]
  · intro PQ QqQ hno
    exact elementLoopAccum_eq_zero powR g info au p eps alpha n QqQ PQ
      (fun hpair => hno hpair.2)

/-- Witness for C1 on the default 3×3 grid at the unique interior node (1,1),
together with a vanishing accumulation at the non-owned index (5,7). -/
theorem plap_residual_exactly_four_element_contributions_witness :
    (Plap.FormFunctionLocal (fun x _ : ℚ => x) (fun x y a : ℚ => x + y + a) qGrid3
        (fun _ _ => (1 : ℚ)) 4 0 0 2 1 1
      = Plap.elemNodeContrib (fun x _ : ℚ => x) (fun x y a : ℚ => x + y + a) qGrid3
          (fun _ _ => (1 : ℚ)) 4 0 0 2 1 1 0
        + Plap.elemNodeContrib (fun x _ : ℚ => x) (fun x y a : ℚ => x + y + a) qGrid3
            (fun _ _ => (1 : ℚ)) 4 0 0 2 2 1 1
        + Plap.elemNodeContrib (fun x _ : ℚ => x) (fun x y a : ℚ => x + y + a) qGrid3
            (fun _ _ => (1 : ℚ)) 4 0 0 2 2 2 2
        + Plap.elemNodeContrib (fun x _ : ℚ => x) (fun x y a : ℚ => x + y + a) qGrid3
            (fun _ _ => (1 : ℚ)) 4 0 0 2 1 2 3) ∧
    Plap.elementLoopAccum (fun x _ : ℚ => x) (fun x y a : ℚ => x + y + a) qGrid3
        (fun _ _ => (1 : ℚ)) 4 0 0 2 7 5 = 0 := by
  have h := plap_residual_exactly_four_element_contributions (fun x _ : ℚ => x)
    (fun x y a : ℚ => x + y + a) qGrid3 (fun _ _ => (1 : ℚ)) 4 0 0 2 1 1
    (by decide) (by decide)
  exact ⟨h.1, h.2 5 7 (by decide)⟩

/-- Helper: telescoping sum over the integer interval `[1, N]`. -/
theorem telescope_Icc (f : ℤ → F) (N : ℕ) :
    (∑ x ∈ Finset.Icc (1 : ℤ) (N : ℤ), (f x - f (x - 1))) = f N - f 0 := by
  induction N with
  | zero => simp
  | succ m ih =>
    have hins : Finset.Icc (1 : ℤ) ((m : ℤ) + 1)
        = insert ((m : ℤ) + 1) (Finset.Icc (1 : ℤ) (m : ℤ)) := by
      ext x
      simp only [Finset.mem_Icc, Finset.mem_insert]
      omega
    push_cast
    rw [hins, Finset.sum_insert (by simp)]
    push_cast at ih
    rw [ih]
    ring_nf

/-- Helper: the 8-point control-volume quadrature of node `(j,k)`, grouped as
four telescoping differences of cached flux values. -/
theorem cvQuad_expand (dx dy : F) (aq : Fin 4 → ℤ → ℤ → F) (j k : ℤ) :
    Ice.cvQuad dx dy aq j k =
      (dy / 2 * aq 0 k j - dy / 2 * aq 0 k (j - 1))
      + (dy / 2 * aq 2 (k - 1) j - dy / 2 * aq 2 (k - 1) (j - 1))
      + (dx / 2 * aq 3 k j - dx / 2 * aq 3 (k - 1) j)
      + (dx / 2 * aq 1 k (j - 1) - dx / 2 * aq 1 (k - 1) (j - 1)) := by
  have hexp : Ice.cvQuad dx dy aq j k
      = dy / 2 * aq 0 (k + 0) (j + 0) + dx / 2 * aq 3 (k + 0) (j + 0)
        + dx / 2 * aq 1 (k + 0) (j + -1) + -dy / 2 * aq 0 (k + 0) (j + -1)
        + -dy / 2 * aq 2 (k + -1) (j + -1) + -dx / 2 * aq 1 (k + -1) (j + -1)
        + -dx / 2 * aq 3 (k + -1) (j + 0) + dy / 2 * aq 2 (k + -1) (j + 0) := by
    unfold Ice.cvQuad
    rw [Fin.sum_univ_eight]
    rfl
  rw [hexp]
  simp only [add_zero, Int.add_neg_one]
  ring

/-- C2: adjacent interior control volumes quote the same cached element-corner
flux `aqquad[c][k][j]` on their shared face with coefficients of equal
magnitude and opposite sign (horizontal neighbours via points 0/3 and 7/4,
vertical neighbours via 1/6 and 2/5); consequently the control-volume
quadratures summed over all interior nodes telescope, and vanish exactly when
the flux values on boundary-adjacent elements are zero (zero-flux boundary);
and `FF[k][j] + M dx dy` of the ice residual at an owned interior node is
exactly that control-volume quadrature of the cached `aqquad` fluxes. -/
theorem ice_flux_symmetry_and_telescoping (dx dy : F) (aq : Fin 4 → ℤ → ℤ → F)
    (mx my : ℕ) (hmx : 3 ≤ mx) (hmy : 3 ≤ my)
    (hq : ∀ (c : Fin 4) (k j : ℤ),
      j = 0 ∨ j = (mx : ℤ) - 2 ∨ k = 0 ∨ k = (my : ℤ) - 2 → aq c k j = 0) :
    (∀ j k : ℤ,
      Ice.cvTerm dx dy aq j k 0 + Ice.cvTerm dx dy aq (j + 1) k 3 = 0 ∧
      Ice.cvTerm dx dy aq j k 7 + Ice.cvTerm dx dy aq (j + 1) k 4 = 0 ∧
      Ice.cvTerm dx dy aq j k 1 + Ice.cvTerm dx dy aq j (k + 1) 6 = 0 ∧
      Ice.cvTerm dx dy aq j k 2 + Ice.cvTerm dx dy aq j (k + 1) 5 = 0) ∧
    (∑ k ∈ Finset.Icc (1 : ℤ) ((my : ℤ) - 2), ∑ j ∈ Finset.Icc (1 : ℤ) ((mx : ℤ) - 2),
      Ice.cvQuad dx dy aq j k) = 0 ∧
    (∀ (powR : F → F → F) (sqrtR sinR cmb : F → F) (piF : F) (user : Ice.AppCtx F)
      (info : GridInfo) (aHin ab0 : ℤ → ℤ → F) (j k : ℤ),
      ownedNode info j k → ¬ boundaryNode info j k →
      Ice.iceResidual powR sqrtR sinR cmb piF user info aHin ab0 k j
        + Ice.Mterm powR sqrtR cmb user info (Ice.bedArray sinR piF user info ab0)
            (Ice.Hzero info aHin) j k
          * (user.L / ((info.mx : F) - 1)) * (user.L / ((info.my : F) - 1))
      = Ice.cvQuad (user.L / ((info.mx : F) - 1)) (user.L / ((info.my : F) - 1))
          (Ice.aqquad powR user info (Ice.Hzero info aHin)
            (Ice.bedArray sinR piF user info ab0)) j k) := by
  refine ⟨?_, ?_, ?_⟩
  · intro j k
    refine ⟨?_, ?_, ?_, ?_⟩
    · show dy / 2 * aq 0 (k + 0) (j + 0) + -dy / 2 * aq 0 (k + 0) (j + 1 + -1) = 0
      simp only [add_zero, Int.add_neg_one, add_sub_cancel_right]
      ring
    · show dy / 2 * aq 2 (k + -1) (j + 0) + -dy / 2 * aq 2 (k + -1) (j + 1 + -1) = 0
      simp only [add_zero, Int.add_neg_one, add_sub_cancel_right]
      ring
    · show dx / 2 * aq 3 (k + 0) (j + 0) + -dx / 2 * aq 3 (k + 1 + -1) (j + 0) = 0
      simp only [add_zero, Int.add_neg_one, add_sub_cancel_right]
      ring
    · show dx / 2 * aq 1 (k + 0) (j + -1) + -dx / 2 * aq 1 (k + 1 + -1) (j + -1) = 0
      simp only [add_zero, Int.add_neg_one, add_sub_cancel_right]
      ring
  · have hNx : (((mx - 2 : ℕ) : ℤ)) = (mx : ℤ) - 2 := by omega
    have hNy : (((my - 2 : ℕ) : ℤ)) = (my : ℤ) - 2 := by omega
    calc (∑ k ∈ Finset.Icc (1 : ℤ) ((my : ℤ) - 2), ∑ j ∈ Finset.Icc (1 : ℤ) ((mx : ℤ) - 2),
            Ice.cvQuad dx dy aq j k)
        = ∑ k ∈ Finset.Icc (1 : ℤ) ((my : ℤ) - 2), ∑ j ∈ Finset.Icc (1 : ℤ) ((mx : ℤ) - 2),
            ((dy / 2 * aq 0 k j - dy / 2 * aq 0 k (j - 1))
              + (dy / 2 * aq 2 (k - 1) j - dy / 2 * aq 2 (k - 1) (j - 1))
              + (dx / 2 * aq 3 k j - dx / 2 * aq 3 (k - 1) j)
              + (dx / 2 * aq 1 k (j - 1) - dx / 2 * aq 1 (k - 1) (j - 1))) := by
          apply Finset.sum_congr rfl
          intro k _
          apply Finset.sum_congr rfl
          intro j _
          rw [cvQuad_expand]
      _ = 0 := by
          simp only [Finset.sum_add_distrib]
          have hA : (∑ k ∈ Finset.Icc (1 : ℤ) ((my : ℤ) - 2),
              ∑ j ∈ Finset.Icc (1 : ℤ) ((mx : ℤ) - 2),
                (dy / 2 * aq 0 k j - dy / 2 * aq 0 k (j - 1))) = 0 := by
            apply Finset.sum_eq_zero
            intro k _
            rw [← hNx, telescope_Icc (fun x => dy / 2 * aq 0 k x) (mx - 2)]
            rw [hNx, hq 0 k ((mx : ℤ) - 2) (by omega), hq 0 k 0 (by omega)]
            ring
          have hB : (∑ k ∈ Finset.Icc (1 : ℤ) ((my : ℤ) - 2),
              ∑ j ∈ Finset.Icc (1 : ℤ) ((mx : ℤ) - 2),
                (dy / 2 * aq 2 (k - 1) j - dy / 2 * aq 2 (k - 1) (j - 1))) = 0 := by
            apply Finset.sum_eq_zero
            intro k _
            rw [← hNx, telescope_Icc (fun x => dy / 2 * aq 2 (k - 1) x) (mx - 2)]
            rw [hNx, hq 2 (k - 1) ((mx : ℤ) - 2) (by omega), hq 2 (k - 1) 0 (by omega)]
            ring
          have hC : (∑ k ∈ Finset.Icc (1 : ℤ) ((my : ℤ) - 2),
              ∑ j ∈ Finset.Icc (1 : ℤ) ((mx : ℤ) - 2),
                (dx / 2 * aq 3 k j - dx / 2 * aq 3 (k - 1) j)) = 0 := by
            rw [Finset.sum_comm]
            apply Finset.sum_eq_zero
            intro j _
            rw [← hNy, telescope_Icc (fun x => dx / 2 * aq 3 x j) (my - 2)]
            rw [hNy, hq 3 ((my : ℤ) - 2) j (by omega), hq 3 0 j (by omega)]
            ring
          have hD : (∑ k ∈ Finset.Icc (1 : ℤ) ((my : ℤ) - 2),
              ∑ j ∈ Finset.Icc (1 : ℤ) ((mx : ℤ) - 2),
                (dx / 2 * aq 1 k (j - 1) - dx / 2 * aq 1 (k - 1) (j - 1))) = 0 := by
            rw [Finset.sum_comm]
            apply Finset.sum_eq_zero
            intro j _
            rw [← hNy, telescope_Icc (fun x => dx / 2 * aq 1 x (j - 1)) (my - 2)]
            rw [hNy, hq 1 ((my : ℤ) - 2) (j - 1) (by omega), hq 1 0 (j - 1) (by omega)]
            ring
          rw [hA, hB, hC, hD]
          norm_num
  · intro powR sqrtR sinR cmb piF user info aHin ab0 j k ho hb
    simp only [Ice.iceResidual]
    rw [if_pos ho, if_neg hb]
    ring

/-- A concrete flux cache on the 4×4 grid, nonzero only at the interior
element (1,1), corner 0 (used by the C2 witness). -/
def aqW : Fin 4 → ℤ → ℤ → ℚ := fun c k j =>
  if c = 0 ∧ k = 1 ∧ j = 1 then 5 else 0

/-- The single-process 4×4 grid. -/
def qGrid4 : GridInfo := ⟨4, 4, 0, 4, 0, 4⟩

/-- Witness for C2 on the 4×4 grid with the concrete cache `aqW`. -/
theorem ice_flux_symmetry_and_telescoping_witness :
    (Ice.cvTerm 1 1 aqW 1 1 0 + Ice.cvTerm 1 1 aqW 2 1 3 = 0) ∧
    (∑ k ∈ Finset.Icc (1 : ℤ) ((4 : ℤ) - 2), ∑ j ∈ Finset.Icc (1 : ℤ) ((4 : ℤ) - 2),
      Ice.cvQuad 1 1 aqW j k) = 0 ∧
    Ice.iceResidual (fun x _ : ℚ => x) id id id 0 qUser qGrid4 (fun _ _ => (1 : ℚ))
        (fun _ _ => 0) 2 1
      + Ice.Mterm (fun x _ : ℚ => x) id id qUser qGrid4
          (Ice.bedArray id 0 qUser qGrid4 (fun _ _ => 0))
          (Ice.Hzero qGrid4 (fun _ _ => (1 : ℚ))) 1 2
        * (qUser.L / ((qGrid4.mx : ℚ) - 1)) * (qUser.L / ((qGrid4.my : ℚ) - 1))
      = Ice.cvQuad (qUser.L / ((qGrid4.mx : ℚ) - 1)) (qUser.L / ((qGrid4.my : ℚ) - 1))
          (Ice.aqquad (fun x _ : ℚ => x) qUser qGrid4
            (Ice.Hzero qGrid4 (fun _ _ => (1 : ℚ)))
            (Ice.bedArray id 0 qUser qGrid4 (fun _ _ => 0))) 1 2 := by
  have hqW : ∀ (c : Fin 4) (k j : ℤ),
      j = 0 ∨ j = ((4 : ℕ) : ℤ) - 2 ∨ k = 0 ∨ k = ((4 : ℕ) : ℤ) - 2 → aqW c k j = 0 := by
    intro c k j h
    unfold aqW
    rw [if_neg]
    rintro ⟨-, hk, hj⟩
    push_cast at h
    omega
  have h := ice_flux_symmetry_and_telescoping (1 : ℚ) 1 aqW 4 4 (by norm_num) (by norm_num) hqW
  refine ⟨(h.1 1 1).1, ?_, ?_⟩
  · have h2 := h.2.1
    norm_num at h2 ⊢
    exact h2
  · exact h.2.2 (fun x _ : ℚ => x) id id id 0 qUser qGrid4 (fun _ _ => (1 : ℚ))
      (fun _ _ => 0) 1 2 (by decide) (by decide)

end Theorems
